import Mathlib

/-!
Shallow embedding of the pooldap connection pool (conn.go).

The Go code manages a bounded pool of LDAP connections built on a buffered
channel.  We embed the pool state and its operations as pure Lean functions:

* a raw connection (the Go interface value of type ldap.Client) is modelled by
  `LdapClient`, carrying an identity and the outcome the liveness probe
  `isAlive` would observe on it;
* the buffered channel `chan ldap.Client` is modelled by `ConnChan`: a FIFO
  buffer of `Option LdapClient` values (an element `none` models a nil
  interface value, the zero value a receive on a closed drained channel
  yields) together with its capacity and closed flag;
* the factory `PoolFactory` is modelled as a function from the invocation
  index (how many times the factory has been called so far on this pool) to
  `Except String LdapClient`, so that a factory that fails on its n-th call is
  expressible; the pool state records the running invocation counter;
* blocking and Go runtime panics are made explicit outcomes of the operations
  (`GetResult.blocked`, `PutResult.panicked`, ...): a function that can block
  or panic in Go returns the corresponding constructor instead;
* `conn.Close()` on a raw connection (disposal) is modelled by appending the
  connection's id to the `disposed` ledger; successful factory invocations are
  recorded in the `created` ledger, so conservation properties are statable.
-/

namespace Pooldap

/-- A raw LDAP connection (a non-nil ldap.Client interface value).  `id`
identifies the connection; `alive` is the outcome the liveness probe
(`isAlive`, a base-scope search) would observe on it. -/
structure LdapClient where
  id : Nat
  alive : Bool
deriving DecidableEq

/-- The buffered channel `chan ldap.Client`.  `buf` is the FIFO buffer
(head = next value received); a buffered `none` models a nil interface
value.  Receiving from a closed channel with an empty buffer yields the
zero value (nil); receiving from an open channel with an empty buffer
blocks; sending on a closed channel panics. -/
structure ConnChan where
  capacity : Nat
  buf : List (Option LdapClient)
  closed : Bool
deriving DecidableEq

/-- The factory: invocation index ↦ new connection or error
(Go: `func(*Client, PoolType) (ldap.Client, error)`; the client and pool-type
arguments are fixed per pool and therefore elided). -/
def PoolFactory : Type := Nat → Except String LdapClient

/-- The pool (Go struct `channelPool`).  `conns = none` models the nil channel
field after `Close`; `factory = none` models the nil factory after `Close`.
`factoryCalls`, `created` and `disposed` are ledgers recording factory
invocations, factory-produced connections and raw-connection `Close()` calls;
they let us state disposal/conservation properties. -/
structure channelPool where
  conns : Option ConnChan
  aliveChecks : Bool
  factory : Option PoolFactory
  closeAt : List UInt8
  initialConnections : Nat
  maxConnections : Nat
  factoryCalls : Nat
  created : List LdapClient
  disposed : List Nat

/-- The checked-out handle (Go struct `PoolConn`).  The back-pointer `c` to the
owning pool is elided; operations that touch the pool take it explicitly. -/
structure PoolConn where
  Conn : Option LdapClient
  unusable : Bool
  closeAt : List UInt8
deriving DecidableEq

/-- Errors `Get` can return: `ErrClosed`, or the error of a failed factory
invocation propagated through `NewConn`. -/
inductive PoolError where
  | errClosed
  | factoryError (msg : String)
deriving DecidableEq

/-- Outcome of `Get`: a handle, an error, blocking forever in the `select`
(no default case in the source), or a runtime panic. -/
inductive GetResult where
  | ok (p : PoolConn)
  | err (e : PoolError)
  | blocked
  | panicked
deriving DecidableEq

/-- Outcome of `NewConn`: a handle, the factory's error, or a runtime panic
(calling a nil factory after `Close`). -/
inductive NewConnResult where
  | ok (p : PoolConn)
  | err (msg : String)
  | panicked
deriving DecidableEq

/-- Outcome of `put` / handle release: normal return or runtime panic. -/
inductive PutResult where
  | ok
  | panicked
deriving DecidableEq

/-- Outcome of one refill tick: normal completion or runtime panic. -/
inductive RefillResult where
  | ok
  | panicked
deriving DecidableEq

/-- `conn.Close()` on a raw connection: record the disposal. -/
def disposeConn (c : channelPool) (conn : LdapClient) : channelPool :=
  { c with disposed := c.disposed ++ [conn.id] }

/-- `isAlive` (conn.go): issues a zero-cost base-scope search and reports
whether it succeeded; modelled by the connection's `alive` field. -/
def isAlive (conn : LdapClient) : Bool :=
  conn.alive

/-- `wrapConn` (conn.go): wrap a raw connection in a fresh handle
(`unusable` defaults to false). -/
def wrapConn (conn : LdapClient) (closeAt : List UInt8) : PoolConn :=
  { Conn := some conn, unusable := false, closeAt := closeAt }

/-- The buffer of the pool's store (empty for the nil channel). -/
def channelPool.storeBuf (c : channelPool) : List (Option LdapClient) :=
  match c.conns with
  | some ch => ch.buf
  | none => []

/-- `Len` (conn.go): `len(c.getConns())`; the length of a nil channel is 0. -/
def channelPool.Len (c : channelPool) : Nat :=
  c.storeBuf.length

/-- `NewConn` (conn.go): invoke the factory once; on error, log and return the
error (the returned *PoolConn is nil); on success wrap the connection.
Calling the nil factory (after `Close`) panics. -/
def channelPool.NewConn (c : channelPool) : NewConnResult × channelPool :=
  match c.factory with
  | none => (NewConnResult.panicked, c)
  | some f =>
    match f c.factoryCalls with
    | Except.error e => (NewConnResult.err e, { c with factoryCalls := c.factoryCalls + 1 })
    | Except.ok conn =>
      (NewConnResult.ok (wrapConn conn c.closeAt),
       { c with factoryCalls := c.factoryCalls + 1, created := c.created ++ [conn] })

/-- `put` after its nil-check (conn.go lines 259-277): under the mutex, if the
channel field is nil dispose the connection (`conn.Close()` on a nil value
would panic); otherwise try a non-blocking send (`select` with `default`):
if there is room insert, if the channel is closed the send panics, and
otherwise dispose the connection. -/
def channelPool.putLocked (c : channelPool) (conn : Option LdapClient) : PutResult × channelPool :=
  match c.conns with
  | none =>
    match conn with
    | some rc => (PutResult.ok, disposeConn c rc)
    | none => (PutResult.panicked, c)
  | some ch =>
    if ch.closed then (PutResult.panicked, c)
    else if ch.buf.length < ch.capacity then
      (PutResult.ok, { c with conns := some { ch with buf := ch.buf ++ [conn] } })
    else
      match conn with
      | some rc => (PutResult.ok, disposeConn c rc)
      | none => (PutResult.panicked, c)

/-- `put` (conn.go): if the passed connection is nil, recreate one via
`NewConn` (returning silently if that fails) and fall through to the
non-blocking insert with the replacement. -/
def channelPool.put (c : channelPool) (conn : Option LdapClient) : PutResult × channelPool :=
  match conn with
  | none =>
    match channelPool.NewConn c with
    | (NewConnResult.err _, c1) => (PutResult.ok, c1)
    | (NewConnResult.panicked, c1) => (PutResult.panicked, c1)
    | (NewConnResult.ok p, c1) => channelPool.putLocked c1 p.Conn
  | some rc => channelPool.putLocked c (some rc)

/-- The body of `Get` after `getConns` captured the channel (conn.go lines
218-230): the `select` has a single receive case and no default, so an open
empty channel blocks.  Receiving nil (closed drained channel, or a buffered
nil) yields `ErrClosed`.  With alive-checks on, a dead pulled connection is
closed and replaced via `NewConn`, whose error propagates. -/
def channelPool.getFromChan (c : channelPool) (ch : ConnChan) : GetResult × channelPool :=
  match ch.buf with
  | x :: rest =>
    let c1 := { c with conns := some { ch with buf := rest } }
    match x with
    | none => (GetResult.err PoolError.errClosed, c1)
    | some conn =>
      if !c1.aliveChecks || isAlive conn then
        (GetResult.ok (wrapConn conn c1.closeAt), c1)
      else
        let c2 := disposeConn c1 conn
        match channelPool.NewConn c2 with
        | (NewConnResult.ok p, c3) => (GetResult.ok p, c3)
        | (NewConnResult.err e, c3) => (GetResult.err (PoolError.factoryError e), c3)
        | (NewConnResult.panicked, c3) => (GetResult.panicked, c3)
  | [] =>
    if ch.closed then (GetResult.err PoolError.errClosed, c)
    else (GetResult.blocked, c)

/-- `Get` (conn.go): a nil channel field means the pool is closed; otherwise
run the `select` against the captured channel. -/
def channelPool.Get (c : channelPool) : GetResult × channelPool :=
  match c.conns with
  | none => (GetResult.err PoolError.errClosed, c)
  | some ch => channelPool.getFromChan c ch

/-- `Close` (conn.go): under the mutex set the channel and factory fields to
nil, then close and drain the captured channel, disposing every buffered
connection (a buffered nil would panic in Go; `put` never inserts nil). -/
def channelPool.Close (c : channelPool) : channelPool :=
  let conns := c.conns
  let c1 := { c with conns := none, factory := none }
  match conns with
  | none => c1
  | some ch =>
    { c1 with disposed := c1.disposed ++ ch.buf.filterMap (fun x => x.map LdapClient.id) }

/-- `MarkUnusable` (conn.go): set the unusable flag. -/
def PoolConn.MarkUnusable (p : PoolConn) : PoolConn :=
  { p with unusable := true }

/-- An error value as `AutoClose` inspects it: nil, an *ldap.Error carrying a
result code, or any other error. -/
inductive ErrValue where
  | noError
  | ldapError (resultCode : UInt8)
  | otherError (msg : String)
deriving DecidableEq

/-- `ldap.IsErrorWithCode`: true exactly when the error is an *ldap.Error
whose result code equals the given code. -/
def IsErrorWithCode (err : ErrValue) (errorCode : UInt8) : Bool :=
  match err with
  | ErrValue.ldapError c => c == errorCode
  | _ => false

/-- The loop of `AutoClose` over the configured codes: on the first match set
the unusable flag and return. -/
def autoCloseLoop (p : PoolConn) (err : ErrValue) : List UInt8 → PoolConn
  | [] => p
  | code :: rest =>
    if IsErrorWithCode err code then { p with unusable := true }
    else autoCloseLoop p err rest

/-- `AutoClose` (conn.go): scan the handle's discard codes; a deferred
`recover` swallows any panic, and no error is ever returned (the function is
total here). -/
def PoolConn.AutoClose (p : PoolConn) (err : ErrValue) : PoolConn :=
  autoCloseLoop p err p.closeAt

/-- `PoolConn.Close` (conn.go), the handle's release: if unusable, dispose the
wrapped connection (skipped when nil), then `conn, _ := c.NewConn()` followed
by `c.put(conn.Conn)` — when `NewConn` fails the error is discarded and the
field access `conn.Conn` on the nil *PoolConn panics.  Otherwise the wrapped
connection goes back via `put`. -/
def PoolConn.Close (p : PoolConn) (c : channelPool) : PutResult × channelPool :=
  if p.unusable then
    let c1 := match p.Conn with
      | some rc => disposeConn c rc
      | none => c
    match channelPool.NewConn c1 with
    | (NewConnResult.ok q, c2) => channelPool.put c2 q.Conn
    | (NewConnResult.err _, c2) => (PutResult.panicked, c2)
    | (NewConnResult.panicked, c2) => (PutResult.panicked, c2)
  else
    channelPool.put c p.Conn

/-- The body of one iteration of the refill loop, iterated
`initialConnections - Len` times per tick (conn.go lines 314-324): on a
factory error the code calls `conn.MarkUnusable()` on the nil *PoolConn that
`NewConn` returned, a nil-pointer dereference panic; on success the new
connection is released into the store. -/
def channelPool.refillStep : Nat → channelPool → RefillResult × channelPool
  | 0, c => (RefillResult.ok, c)
  | n + 1, c =>
    match channelPool.NewConn c with
    | (NewConnResult.err _, c1) => (RefillResult.panicked, c1)
    | (NewConnResult.panicked, c1) => (RefillResult.panicked, c1)
    | (NewConnResult.ok p, c1) =>
      match channelPool.put c1 p.Conn with
      | (PutResult.ok, c2) => channelPool.refillStep n c2
      | (PutResult.panicked, c2) => (RefillResult.panicked, c2)

/-- One wake of `RefillPool` (conn.go): run the for loop
`for i := c.Len(); i < c.initialConnections; i++`, i.e.
`initialConnections - Len` iterations of the body. -/
def channelPool.refillTick (c : channelPool) : RefillResult × channelPool :=
  channelPool.refillStep (c.initialConnections - c.Len) c

/-- Outcome of `NewChannelPool`'s fill loop. -/
inductive FillResult where
  | ok (c : channelPool)
  | err (msg : String) (c : channelPool)
  | blocked (c : channelPool)

/-- The pre-fill loop of `NewChannelPool` (conn.go lines 182-189): invoke the
factory directly; on error call `c.Close()` and fail with the construction
error; on success send the connection on the channel (a blocking send; with a
nil or full channel it would block, which valid capacities make unreachable). -/
def fillPool (f : PoolFactory) : Nat → channelPool → FillResult
  | 0, c => FillResult.ok c
  | n + 1, c =>
    match f c.factoryCalls with
    | Except.error e =>
      FillResult.err ("factory is not able to fill the pool: " ++ e)
        (channelPool.Close { c with factoryCalls := c.factoryCalls + 1 })
    | Except.ok conn =>
      match c.conns with
      | none => FillResult.blocked { c with factoryCalls := c.factoryCalls + 1,
                                            created := c.created ++ [conn] }
      | some ch =>
        if ch.buf.length < ch.capacity then
          fillPool f n { c with conns := some { ch with buf := ch.buf ++ [some conn] },
                                factoryCalls := c.factoryCalls + 1,
                                created := c.created ++ [conn] }
        else
          FillResult.blocked { c with factoryCalls := c.factoryCalls + 1,
                                      created := c.created ++ [conn] }

/-- Outcome of `NewChannelPool`: a pool, the invalid-capacity error, a
construction failure (carrying the internal state after its `Close()`, for
bookkeeping), or a blocked fill. -/
inductive CreateResult where
  | ok (c : channelPool)
  | invalid (msg : String)
  | err (msg : String) (c : channelPool)
  | blocked (c : channelPool)

/-- `NewChannelPool` (conn.go): validate capacities, build the empty pool with
a buffered channel of capacity maxCap, pre-fill it `initialCap` times via the
factory; any factory failure closes the pool and fails construction. -/
def NewChannelPool (initialCap maxCap : Int) (f : PoolFactory) (closeAt : List UInt8) :
    CreateResult :=
  if initialCap < 0 ∨ maxCap ≤ 0 ∨ initialCap > maxCap then
    CreateResult.invalid ("invalid capacity settings")
  else
    let c : channelPool :=
      { conns := some { capacity := maxCap.toNat, buf := [], closed := false },
        aliveChecks := false,
        factory := some f,
        closeAt := closeAt,
        initialConnections := initialCap.toNat,
        maxConnections := maxCap.toNat,
        factoryCalls := 0, created := [], disposed := [] }
    match fillPool f initialCap.toNat c with
    | FillResult.ok c1 => CreateResult.ok c1
    | FillResult.err m c1 => CreateResult.err m c1
    | FillResult.blocked c1 => CreateResult.blocked c1

/-! Concrete states used by the per-claim evaluation theorems. -/

/-- A factory that always succeeds, producing distinct connections. -/
def fOk : PoolFactory := fun n => Except.ok { id := n, alive := true }

/-- An open pool with an empty store (capacity 2, nothing buffered). -/
def cEmptyOpen : channelPool :=
  { conns := some { capacity := 2, buf := [], closed := false },
    aliveChecks := false,
    factory := some fOk,
    closeAt := [200],
    initialConnections := 2, maxConnections := 2,
    factoryCalls := 0, created := [], disposed := [] }

/-- A factory that always fails (the remote endpoint is unreachable). -/
def fFail : PoolFactory := fun _ => Except.error ("connection refused")

/-- An open pool below target occupancy whose factory fails. -/
def cRefillFail : channelPool :=
  { conns := some { capacity := 2, buf := [], closed := false },
    aliveChecks := false,
    factory := some fFail,
    closeAt := [],
    initialConnections := 1, maxConnections := 2,
    factoryCalls := 0, created := [], disposed := [] }

/-- A pool after `Close`: both the channel and the factory fields are nil. -/
def cClosed : channelPool :=
  { conns := none,
    aliveChecks := false,
    factory := none,
    closeAt := [200],
    initialConnections := 1, maxConnections := 2,
    factoryCalls := 1, created := [{ id := 0, alive := true }],
    disposed := [0] }

/-- An open pool whose store holds one connection with room for one more. -/
def cRoomOpen : channelPool :=
  { conns := some { capacity := 2, buf := [some { id := 0, alive := true }], closed := false },
    aliveChecks := false,
    factory := some fOk,
    closeAt := [],
    initialConnections := 2, maxConnections := 2,
    factoryCalls := 1, created := [{ id := 0, alive := true }], disposed := [] }

/-- An open pool whose store is at capacity. -/
def cFullOpen : channelPool :=
  { conns := some { capacity := 1, buf := [some { id := 0, alive := true }], closed := false },
    aliveChecks := false,
    factory := some fOk,
    closeAt := [],
    initialConnections := 1, maxConnections := 1,
    factoryCalls := 1, created := [{ id := 0, alive := true }], disposed := [] }

/-! Helper lemmas shared by several claim theorems. -/

/-- After `Close`, the pool's channel field is nil. -/
theorem close_conns_none (c : channelPool) : (channelPool.Close c).conns = none := by
  cases hc : c.conns <;> simp [channelPool.Close, hc]

/-- Behaviour of the `AutoClose` scan over an arbitrary code list: the flag
becomes old-flag OR some-code-matches, and nothing else changes. -/
theorem autoCloseLoop_spec (p : PoolConn) (err : ErrValue) :
    ∀ l : List UInt8,
      (autoCloseLoop p err l).unusable
        = (p.unusable || l.any (fun code => IsErrorWithCode err code)) ∧
      (autoCloseLoop p err l).Conn = p.Conn ∧
      (autoCloseLoop p err l).closeAt = p.closeAt := by
  intro l
  induction l with
  | nil => simp [autoCloseLoop]
  | cons code rest ih =>
    cases hc : IsErrorWithCode err code with
    | true => simp [autoCloseLoop, hc]
    | false => simp [autoCloseLoop, hc, ih]

/-! Claim theorems. -/

/-- C1: on an open pool with an empty store, `Get` blocks in its `select`
(the source has no default case falling through to the factory), contradicting
the claim and the function's own doc comment that a new connection is created
on demand. -/
theorem get_blocks_on_empty_open_pool :
    channelPool.Get cEmptyOpen = (GetResult.blocked, cEmptyOpen) := rfl

/-- C2: one refill tick on a pool below target whose factory fails panics
(the nil *PoolConn returned by `NewConn` is dereferenced by
`conn.MarkUnusable()`), instead of logging the failure and continuing. -/
theorem refill_tick_panics_on_factory_failure :
    channelPool.refillTick cRefillFail
      = (RefillResult.panicked, { cRefillFail with factoryCalls := 1 }) := rfl

/-- C5: a checkout on a closed pool fails with ErrClosed without blocking and
without panicking: when the channel field is nil, when the pool was just
closed, and when the caller raced `Close` and holds the drained closed
channel (the receive yields the nil zero value). -/
theorem get_on_closed_pool_errClosed :
    (∀ c : channelPool, c.conns = none →
      channelPool.Get c = (GetResult.err PoolError.errClosed, c)) ∧
    (∀ c : channelPool, channelPool.Get (channelPool.Close c)
      = (GetResult.err PoolError.errClosed, channelPool.Close c)) ∧
    (∀ (c : channelPool) (cap : Nat),
      channelPool.getFromChan c { capacity := cap, buf := [], closed := true }
        = (GetResult.err PoolError.errClosed, c)) := by
  have hA : ∀ c : channelPool, c.conns = none →
      channelPool.Get c = (GetResult.err PoolError.errClosed, c) := by
    intro c h
    simp [channelPool.Get, h]
  refine ⟨hA, fun c => hA _ (close_conns_none c), fun c cap => rfl⟩

/-- C5 witness: evaluating the theorem on a concrete closed pool. -/
theorem get_on_closed_pool_errClosed_witness :
    channelPool.Get cClosed = (GetResult.err PoolError.errClosed, cClosed) :=
  get_on_closed_pool_errClosed.1 cClosed rfl

/-- C6: `put` of a connection never blocks the caller: on a closed pool the
connection is disposed immediately, at capacity it is disposed instead of
waiting, and otherwise it is inserted into the store.  (The outcome type of
`put` has no blocked constructor: every path returns.) -/
theorem put_never_blocks :
    ∀ (c : channelPool) (rc : LdapClient),
      (c.conns = none →
        channelPool.put c (some rc) = (PutResult.ok, disposeConn c rc)) ∧
      (∀ ch : ConnChan, c.conns = some ch → ch.closed = false →
        (ch.buf.length < ch.capacity →
          channelPool.put c (some rc)
            = (PutResult.ok, { c with conns := some { ch with buf := ch.buf ++ [some rc] } })) ∧
        (ch.capacity ≤ ch.buf.length →
          channelPool.put c (some rc) = (PutResult.ok, disposeConn c rc))) := by
  intro c rc
  constructor
  · intro h
    simp [channelPool.put, channelPool.putLocked, h]
  · intro ch hch hcl
    constructor
    · intro hroom
      simp [channelPool.put, channelPool.putLocked, hch, hcl, hroom]
    · intro hfull
      simp [channelPool.put, channelPool.putLocked, hch, hcl, Nat.not_lt.mpr hfull]

/-- C6 witness: evaluating the theorem on concrete closed, full and roomy
pools. -/
theorem put_never_blocks_witness :
    channelPool.put cClosed (some { id := 9, alive := true })
      = (PutResult.ok, disposeConn cClosed { id := 9, alive := true }) ∧
    channelPool.put cFullOpen (some { id := 9, alive := true })
      = (PutResult.ok, disposeConn cFullOpen { id := 9, alive := true }) ∧
    channelPool.put cRoomOpen (some { id := 9, alive := true })
      = (PutResult.ok,
         { cRoomOpen with
             conns := some ⟨2, [some ⟨0, true⟩, some ⟨9, true⟩], false⟩ }) := by
  refine ⟨(put_never_blocks cClosed _).1 rfl,
          (put_never_blocks cFullOpen _).2 _ rfl rfl |>.2 (by decide), ?_⟩
  have h := (put_never_blocks cRoomOpen { id := 9, alive := true }).2
    { capacity := 2, buf := [some { id := 0, alive := true }], closed := false } rfl rfl
  exact h.1 (by decide)

/-- C7: `AutoClose` marks the handle unusable exactly when the error signal is
an LDAP error whose code is among the handle's configured discard codes (an
already-set flag stays set), and it never propagates a failure: it is a total
function that changes nothing but the flag. -/
theorem autoClose_marks_iff_code_matches :
    ∀ (p : PoolConn) (err : ErrValue),
      (PoolConn.AutoClose p err).unusable
        = (p.unusable || p.closeAt.any (fun code => IsErrorWithCode err code)) ∧
      (PoolConn.AutoClose p err).Conn = p.Conn ∧
      (PoolConn.AutoClose p err).closeAt = p.closeAt := by
  intro p err
  exact autoCloseLoop_spec p err p.closeAt

/-! Further helper lemmas about `NewConn`, `putLocked` and `put`. -/

/-- `NewConn` never touches the channel or the disposal ledger. -/
theorem NewConn_preserves (c : channelPool) :
    (channelPool.NewConn c).2.conns = c.conns ∧
    (channelPool.NewConn c).2.disposed = c.disposed := by
  cases hfa : c.factory with
  | none => simp [channelPool.NewConn, hfa]
  | some fa => cases hf : fa c.factoryCalls <;> simp [channelPool.NewConn, hfa, hf]

/-- A successful `NewConn` comes from a successful factory invocation, wraps
exactly the produced connection, and bumps the invocation counter. -/
theorem NewConn_ok_shape (c : channelPool) (q : PoolConn) (c2 : channelPool)
    (h : channelPool.NewConn c = (NewConnResult.ok q, c2)) :
    ∃ fa nc, c.factory = some fa ∧ fa c.factoryCalls = Except.ok nc ∧
      q = wrapConn nc c.closeAt ∧
      c2 = { c with factoryCalls := c.factoryCalls + 1, created := c.created ++ [nc] } := by
  cases hfa : c.factory with
  | none => simp [channelPool.NewConn, hfa] at h
  | some fa =>
    cases hf : fa c.factoryCalls with
    | error e => simp [channelPool.NewConn, hfa, hf] at h
    | ok nc =>
      simp only [channelPool.NewConn, hfa, hf, Prod.mk.injEq, NewConnResult.ok.injEq] at h
      exact ⟨fa, nc, rfl, hf, h.1.symm, h.2.symm⟩

/-- Disposals recorded before a `putLocked` survive it. -/
theorem putLocked_disposed_mono (c : channelPool) (y : Option LdapClient) (a : Nat)
    (ha : a ∈ c.disposed) : a ∈ (channelPool.putLocked c y).2.disposed := by
  cases hc : c.conns with
  | none =>
    cases y with
    | none => simpa [channelPool.putLocked, hc]
    | some rc => simp [channelPool.putLocked, hc, disposeConn, ha]
  | some ch =>
    cases hcl : ch.closed with
    | true => simpa [channelPool.putLocked, hc, hcl]
    | false =>
      by_cases hroom : ch.buf.length < ch.capacity
      · simpa [channelPool.putLocked, hc, hcl, hroom]
      · cases y with
        | none => simpa [channelPool.putLocked, hc, hcl, hroom]
        | some rc => simp [channelPool.putLocked, hc, hcl, hroom, disposeConn, ha]

/-- Everything in the store after a `putLocked` is either the inserted value
or was already stored. -/
theorem putLocked_storeBuf_sub (c : channelPool) (y x : Option LdapClient)
    (hx : x ∈ (channelPool.putLocked c y).2.storeBuf) : x = y ∨ x ∈ c.storeBuf := by
  cases hc : c.conns with
  | none =>
    cases y with
    | none => simp [channelPool.putLocked, hc, channelPool.storeBuf] at hx
    | some rc => simp [channelPool.putLocked, hc, channelPool.storeBuf, disposeConn] at hx
  | some ch =>
    cases hcl : ch.closed with
    | true =>
      right
      simpa [channelPool.putLocked, hc, hcl] using hx
    | false =>
      by_cases hroom : ch.buf.length < ch.capacity
      · simp [channelPool.putLocked, hc, hcl, hroom, channelPool.storeBuf] at hx
        rcases hx with hx | hx
        · right; simp [channelPool.storeBuf, hc, hx]
        · left; exact hx
      · cases y with
        | none =>
          right
          simpa [channelPool.putLocked, hc, hcl, hroom] using hx
        | some rc =>
          right
          simpa [channelPool.putLocked, hc, hcl, hroom, disposeConn, channelPool.storeBuf, hc]
            using hx

/-- Disposals recorded before a `put` survive it. -/
theorem put_disposed_mono (c : channelPool) (y : Option LdapClient) (a : Nat)
    (ha : a ∈ c.disposed) : a ∈ (channelPool.put c y).2.disposed := by
  cases y with
  | some rc => exact putLocked_disposed_mono c (some rc) a ha
  | none =>
    rcases hn : channelPool.NewConn c with ⟨r, c1⟩
    have hpres := NewConn_preserves c
    rw [hn] at hpres
    cases r with
    | ok p =>
      have hput : channelPool.put c none = channelPool.putLocked c1 p.Conn := by
        simp [channelPool.put, hn]
      rw [hput]
      exact putLocked_disposed_mono c1 p.Conn a (hpres.2 ▸ ha)
    | err e =>
      have hput : channelPool.put c none = (PutResult.ok, c1) := by
        simp [channelPool.put, hn]
      rw [hput]
      exact hpres.2 ▸ ha
    | panicked =>
      have hput : channelPool.put c none = (PutResult.panicked, c1) := by
        simp [channelPool.put, hn]
      rw [hput]
      exact hpres.2 ▸ ha

/-- `put` never inserts nil: a store holding only non-nil connections still
holds only non-nil connections after any `put`. -/
theorem put_storeBuf_nonnil (c : channelPool) (y : Option LdapClient)
    (hc : ∀ x ∈ c.storeBuf, x.isSome) :
    ∀ x ∈ (channelPool.put c y).2.storeBuf, x.isSome := by
  cases y with
  | some rc =>
    intro x hx
    rcases putLocked_storeBuf_sub c (some rc) x hx with h | h
    · rw [h]; rfl
    · exact hc x h
  | none =>
    rcases hn : channelPool.NewConn c with ⟨r, c1⟩
    have hpres := NewConn_preserves c
    rw [hn] at hpres
    have hbuf : c1.storeBuf = c.storeBuf := by
      unfold channelPool.storeBuf
      rw [hpres.1]
    cases r with
    | err e =>
      have hput : channelPool.put c none = (PutResult.ok, c1) := by
        simp [channelPool.put, hn]
      rw [hput]
      intro x hx
      exact hc x (hbuf ▸ hx)
    | panicked =>
      have hput : channelPool.put c none = (PutResult.panicked, c1) := by
        simp [channelPool.put, hn]
      rw [hput]
      intro x hx
      exact hc x (hbuf ▸ hx)
    | ok p =>
      obtain ⟨fa, nc, -, -, hq, -⟩ := NewConn_ok_shape c p c1 hn
      have hput : channelPool.put c none = channelPool.putLocked c1 p.Conn := by
        simp [channelPool.put, hn]
      rw [hput, hq]
      intro x hx
      rcases putLocked_storeBuf_sub c1 (some nc) x hx with h | h
      · rw [h]; rfl
      · exact hc x (hbuf ▸ h)

/-- `PoolConn.Close` on an unusable handle: dispose the wrapped connection,
then attempt the replacement via `NewConn`/`put` (panicking when `NewConn`
fails, since the discarded nil handle is dereferenced). -/
theorem close_unusable_shape (p : PoolConn) (c : channelPool) (rc : LdapClient)
    (hu : p.unusable = true) (hconn : p.Conn = some rc) :
    PoolConn.Close p c =
      (match channelPool.NewConn (disposeConn c rc) with
       | (NewConnResult.ok q, c2) => channelPool.put c2 q.Conn
       | (NewConnResult.err _, c2) => (PutResult.panicked, c2)
       | (NewConnResult.panicked, c2) => (PutResult.panicked, c2)) := by
  simp [PoolConn.Close, hu, hconn]

/-- C3 counterexample: releasing an unusable handle on an open pool whose
store is at capacity invokes the factory once, but the replacement is
disposed, not inserted: the store is unchanged and both the wrapped
connection (id 5) and the replacement (id 1) are disposed. -/
theorem release_unusable_full_store_counterexample :
    (PoolConn.Close ⟨some ⟨5, true⟩, true, []⟩ cFullOpen).2.storeBuf = cFullOpen.storeBuf ∧
    (PoolConn.Close ⟨some ⟨5, true⟩, true, []⟩ cFullOpen).2.disposed = [5, 1] ∧
    (PoolConn.Close ⟨some ⟨5, true⟩, true, []⟩ cFullOpen).2.factoryCalls = 2 := by
  refine ⟨rfl, rfl, rfl⟩

/-- C3 (amended): releasing an unusable handle on an open pool whose factory
succeeds disposes the wrapped connection, invokes the factory exactly once,
and inserts the replacement into the store when it is below capacity,
disposing the replacement instead when the store is full. -/
theorem release_unusable_dispose_and_replace :
    ∀ (p : PoolConn) (c : channelPool) (rc nc : LdapClient) (ch : ConnChan) (fa : PoolFactory),
      p.unusable = true → p.Conn = some rc →
      c.conns = some ch → ch.closed = false →
      c.factory = some fa → fa c.factoryCalls = Except.ok nc →
      (PoolConn.Close p c).1 = PutResult.ok ∧
      (PoolConn.Close p c).2.factoryCalls = c.factoryCalls + 1 ∧
      rc.id ∈ (PoolConn.Close p c).2.disposed ∧
      (ch.buf.length < ch.capacity →
        (PoolConn.Close p c).2.storeBuf = ch.buf ++ [some nc]) ∧
      (ch.capacity ≤ ch.buf.length →
        (PoolConn.Close p c).2.storeBuf = ch.buf ∧
        nc.id ∈ (PoolConn.Close p c).2.disposed) := by
  intro p c rc nc ch fa hu hpc hc hcl hfa hf
  have hclose : PoolConn.Close p c
      = channelPool.putLocked
          { c with disposed := c.disposed ++ [rc.id],
                   factoryCalls := c.factoryCalls + 1,
                   created := c.created ++ [nc] } (some nc) := by
    rw [close_unusable_shape p c rc hu hpc]
    simp [channelPool.NewConn, disposeConn, hfa, hf, channelPool.put, wrapConn]
  rw [hclose]
  by_cases hroom : ch.buf.length < ch.capacity
  · simp [channelPool.putLocked, hc, hcl, hroom, channelPool.storeBuf, disposeConn]
  · simp [channelPool.putLocked, hc, hcl, hroom, channelPool.storeBuf, disposeConn]

/-- C3 witness: on a concrete open pool with room, releasing the unusable
handle around connection 5 disposes it and inserts the fresh connection 1. -/
theorem release_unusable_dispose_and_replace_witness :
    (PoolConn.Close ⟨some ⟨5, true⟩, true, []⟩ cRoomOpen).1 = PutResult.ok ∧
    (PoolConn.Close ⟨some ⟨5, true⟩, true, []⟩ cRoomOpen).2.storeBuf
      = [some ⟨0, true⟩, some ⟨1, true⟩] ∧
    (5 : Nat) ∈ (PoolConn.Close ⟨some ⟨5, true⟩, true, []⟩ cRoomOpen).2.disposed := by
  have h := release_unusable_dispose_and_replace ⟨some ⟨5, true⟩, true, []⟩ cRoomOpen
    ⟨5, true⟩ ⟨1, true⟩ ⟨2, [some ⟨0, true⟩], false⟩ fOk rfl rfl rfl rfl rfl rfl
  exact ⟨h.1, by simpa using h.2.2.2.1 (by decide), h.2.2.1⟩

/-- C8: with alive-checks on, a dead connection pulled from the store is
disposed and replaced by exactly one factory invocation, whose result is
returned as-is: a factory error propagates to the caller, and a fresh
connection is handed out with no second liveness probe (even a dead one). -/
theorem get_alive_check_retry :
    ∀ (c : channelPool) (ch : ConnChan) (conn : LdapClient)
      (rest : List (Option LdapClient)) (fa : PoolFactory),
      c.conns = some ch → ch.buf = some conn :: rest →
      c.aliveChecks = true → conn.alive = false →
      c.factory = some fa →
      (channelPool.Get c).2.disposed = c.disposed ++ [conn.id] ∧
      (channelPool.Get c).2.factoryCalls = c.factoryCalls + 1 ∧
      (∀ e, fa c.factoryCalls = Except.error e →
        (channelPool.Get c).1 = GetResult.err (PoolError.factoryError e)) ∧
      (∀ nc, fa c.factoryCalls = Except.ok nc →
        (channelPool.Get c).1 = GetResult.ok (wrapConn nc c.closeAt)) := by
  intro c ch conn rest fa hc hb ha hal hfa
  cases hf : fa c.factoryCalls with
  | error e =>
    have hG : channelPool.Get c
        = (GetResult.err (PoolError.factoryError e),
           { c with conns := some { ch with buf := rest },
                    disposed := c.disposed ++ [conn.id],
                    factoryCalls := c.factoryCalls + 1 }) := by
      simp [channelPool.Get, hc, channelPool.getFromChan, hb, ha, isAlive, hal,
            channelPool.NewConn, disposeConn, hfa, hf]
    rw [hG]
    refine ⟨rfl, rfl, ?_, ?_⟩
    · intro e' he'
      injection he' with h
      subst h
      rfl
    · intro nc hnc
      exact Except.noConfusion hnc
  | ok nc =>
    have hG : channelPool.Get c
        = (GetResult.ok (wrapConn nc c.closeAt),
           { c with conns := some { ch with buf := rest },
                    disposed := c.disposed ++ [conn.id],
                    factoryCalls := c.factoryCalls + 1,
                    created := c.created ++ [nc] }) := by
      simp [channelPool.Get, hc, channelPool.getFromChan, hb, ha, isAlive, hal,
            channelPool.NewConn, disposeConn, hfa, hf]
    rw [hG]
    refine ⟨rfl, rfl, ?_, ?_⟩
    · intro e' he'
      exact Except.noConfusion he'
    · intro nc' hnc
      injection hnc with h
      subst h
      rfl

/-- An open pool with alive-checks on whose stored connection is dead and
whose factory fails. -/
def cDeadStoreFail : channelPool :=
  { conns := some { capacity := 2, buf := [some { id := 3, alive := false }], closed := false },
    aliveChecks := true,
    factory := some fFail,
    closeAt := [],
    initialConnections := 1, maxConnections := 2,
    factoryCalls := 1, created := [{ id := 3, alive := false }], disposed := [] }

/-- C8 witness: on a concrete pool holding one dead connection with a failing
factory, checkout disposes the dead connection and propagates the factory
error. -/
theorem get_alive_check_retry_witness :
    (channelPool.Get cDeadStoreFail).2.disposed = [3] ∧
    (channelPool.Get cDeadStoreFail).2.factoryCalls = 2 ∧
    (channelPool.Get cDeadStoreFail).1
      = GetResult.err (PoolError.factoryError ("connection refused")) := by
  have h := get_alive_check_retry cDeadStoreFail
    ⟨2, [some ⟨3, false⟩], false⟩ ⟨3, false⟩ [] fFail rfl rfl rfl rfl rfl
  exact ⟨by simpa using h.1, h.2.1, h.2.2.1 ("connection refused") rfl⟩

/-- C9 counterexample: `put` of a nil connection on an open pool whose store
is at capacity creates the replacement (id 1) but disposes it instead of
inserting it, leaving the store unchanged. -/
theorem put_nil_full_store_counterexample :
    (channelPool.put cFullOpen none).2.storeBuf = cFullOpen.storeBuf ∧
    (channelPool.put cFullOpen none).2.disposed = [1] ∧
    (channelPool.put cFullOpen none).1 = PutResult.ok := by
  refine ⟨rfl, rfl, rfl⟩

/-- C9 (amended): `put` of a nil connection on an open pool never inserts nil:
it creates a fresh connection via the factory and inserts that replacement
when the store is below capacity (disposing it when the store is full), or
returns silently when the factory fails; any store holding only non-nil
connections still does after any `put`. -/
theorem put_nil_replacement :
    ∀ (c : channelPool) (ch : ConnChan) (fa : PoolFactory),
      c.conns = some ch → ch.closed = false → c.factory = some fa →
      (∀ e, fa c.factoryCalls = Except.error e →
        channelPool.put c none = (PutResult.ok, { c with factoryCalls := c.factoryCalls + 1 })) ∧
      (∀ nc, fa c.factoryCalls = Except.ok nc →
        (channelPool.put c none).1 = PutResult.ok ∧
        (ch.buf.length < ch.capacity →
          (channelPool.put c none).2.storeBuf = ch.buf ++ [some nc]) ∧
        (ch.capacity ≤ ch.buf.length →
          (channelPool.put c none).2.storeBuf = ch.buf ∧
          nc.id ∈ (channelPool.put c none).2.disposed)) ∧
      (∀ y : Option LdapClient, (∀ x ∈ c.storeBuf, x.isSome) →
        ∀ x ∈ (channelPool.put c y).2.storeBuf, x.isSome) := by
  intro c ch fa hc hcl hfa
  refine ⟨?_, ?_, fun y hy => put_storeBuf_nonnil c y hy⟩
  · intro e he
    simp [channelPool.put, channelPool.NewConn, hfa, he]
  · intro nc hnc
    have hput : channelPool.put c none
        = channelPool.putLocked
            { c with factoryCalls := c.factoryCalls + 1,
                     created := c.created ++ [nc] } (some nc) := by
      simp [channelPool.put, channelPool.NewConn, hfa, hnc, wrapConn]
    rw [hput]
    by_cases hroom : ch.buf.length < ch.capacity
    · simp [channelPool.putLocked, hc, hcl, hroom, channelPool.storeBuf]
    · simp [channelPool.putLocked, hc, hcl, hroom, channelPool.storeBuf, disposeConn]

/-- C9 witness: on a concrete open pool with room, `put` of nil inserts the
freshly created connection 1; and a non-nil store stays non-nil. -/
theorem put_nil_replacement_witness :
    (channelPool.put cRoomOpen none).1 = PutResult.ok ∧
    (channelPool.put cRoomOpen none).2.storeBuf = [some ⟨0, true⟩, some ⟨1, true⟩] ∧
    (∀ x ∈ (channelPool.put cRoomOpen none).2.storeBuf, x.isSome) := by
  have h := put_nil_replacement cRoomOpen ⟨2, [some ⟨0, true⟩], false⟩ fOk rfl rfl rfl
  have h2 := h.2.1 ⟨1, true⟩ rfl
  exact ⟨h2.1, by simpa using h2.2.1 (by decide),
         h.2.2 none (by intro x hx; simp [cRoomOpen, channelPool.storeBuf] at hx; simp [hx])⟩

/-- C10: the unusable flag is monotone: `MarkUnusable` sets it, `AutoClose`
never clears it, and releasing an unusable handle takes the dispose path: the
wrapped connection is disposed and is never (re)inserted into the store
(provided the factory does not hand back the very same connection). -/
theorem unusable_monotone :
    (∀ p : PoolConn, (PoolConn.MarkUnusable p).unusable = true) ∧
    (∀ (p : PoolConn) (e : ErrValue),
      p.unusable = true → (PoolConn.AutoClose p e).unusable = true) ∧
    (∀ (p : PoolConn) (c : channelPool) (rc : LdapClient),
      p.unusable = true → p.Conn = some rc →
      rc.id ∈ (PoolConn.Close p c).2.disposed ∧
      ((∀ (fa : PoolFactory) (nc : LdapClient), c.factory = some fa →
          fa c.factoryCalls = Except.ok nc → nc ≠ rc) →
        some rc ∈ (PoolConn.Close p c).2.storeBuf → some rc ∈ c.storeBuf)) := by
  refine ⟨fun p => rfl, ?_, ?_⟩
  · intro p e hu
    simp [PoolConn.AutoClose, (autoCloseLoop_spec p e p.closeAt).1, hu]
  · intro p c rc hu hpc
    rw [close_unusable_shape p c rc hu hpc]
    rcases hn : channelPool.NewConn (disposeConn c rc) with ⟨r, c1⟩
    have hpres := NewConn_preserves (disposeConn c rc)
    rw [hn] at hpres
    have hconns : c1.conns = c.conns := hpres.1
    have hdisp : c1.disposed = c.disposed ++ [rc.id] := hpres.2
    have hbuf : c1.storeBuf = c.storeBuf := by
      unfold channelPool.storeBuf
      rw [hconns]
    cases r with
    | err e =>
      exact ⟨by simp [hdisp], fun _ hx => hbuf ▸ hx⟩
    | panicked =>
      exact ⟨by simp [hdisp], fun _ hx => hbuf ▸ hx⟩
    | ok q =>
      obtain ⟨fa, nc, hfa, hf, hq, -⟩ := NewConn_ok_shape (disposeConn c rc) q c1 hn
      subst hq
      refine ⟨putLocked_disposed_mono c1 (some nc) rc.id (by simp [hdisp]), ?_⟩
      intro hfresh hx
      have hx' : some rc ∈ (channelPool.putLocked c1 (some nc)).2.storeBuf := hx
      rcases putLocked_storeBuf_sub c1 (some nc) (some rc) hx' with h | h
      · exfalso
        have hne : nc ≠ rc := hfresh fa nc hfa hf
        injection h with h2
        exact hne h2.symm
      · exact hbuf ▸ h

/-- C10 witness: on a concrete pool, the marked handle stays unusable through
`AutoClose`, and its release disposes connection 5 without it entering the
store. -/
theorem unusable_monotone_witness :
    (PoolConn.AutoClose ⟨some ⟨5, true⟩, true, [200]⟩ ErrValue.noError).unusable = true ∧
    (5 : Nat) ∈ (PoolConn.Close ⟨some ⟨5, true⟩, true, []⟩ cEmptyOpen).2.disposed ∧
    (some ⟨5, true⟩ ∈ (PoolConn.Close ⟨some ⟨5, true⟩, true, []⟩ cEmptyOpen).2.storeBuf →
      some ⟨5, true⟩ ∈ cEmptyOpen.storeBuf) := by
  have h := unusable_monotone.2.2 ⟨some ⟨5, true⟩, true, []⟩ cEmptyOpen ⟨5, true⟩ rfl rfl
  refine ⟨unusable_monotone.2.1 ⟨some ⟨5, true⟩, true, [200]⟩ ErrValue.noError rfl,
          h.1, h.2 ?_⟩
  intro fa nc hfa hnc hcn
  subst hcn
  have hfe : fOk = fa := by injection hfa
  subst hfe
  exact absurd hnc (by simp [fOk, cEmptyOpen])

/-- Draining a buffer of wrapped connections disposes exactly their ids. -/
theorem filterMap_map_some_id (l : List LdapClient) :
    (l.map some).filterMap (fun x => x.map LdapClient.id) = l.map LdapClient.id := by
  induction l with
  | nil => rfl
  | cons a t ih => simp [List.filterMap_cons, ih]

/-- The fill loop of `NewChannelPool`, run on a state whose buffer holds
exactly the connections created so far, fails atomically when the factory
first fails within the remaining budget: the loop returns the construction
error, and the final state has disposed precisely the created connections and
a nil channel and factory. -/
theorem fillPool_first_failure (f : PoolFactory) :
    ∀ (n : Nat) (c : channelPool) (ch : ConnChan) (i : Nat) (e : String),
      c.conns = some ch →
      ch.buf = c.created.map some →
      c.disposed = [] →
      ch.buf.length + n ≤ ch.capacity →
      i < n →
      f (c.factoryCalls + i) = Except.error e →
      (∀ j, j < i → ∃ cj, f (c.factoryCalls + j) = Except.ok cj) →
      ∃ cF, fillPool f n c
          = FillResult.err ("factory is not able to fill the pool: " ++ e) cF ∧
        cF.disposed = cF.created.map LdapClient.id ∧
        cF.conns = none ∧ cF.factory = none := by
  intro n
  induction n with
  | zero =>
    intro c ch i e _ _ _ _ hi _ _
    exact absurd hi (Nat.not_lt_zero i)
  | succ n ih =>
    intro c ch i e hc hbuf hdisp hlen hi hfe hok
    cases i with
    | zero =>
      rw [Nat.add_zero] at hfe
      have hstep : fillPool f (n + 1) c
          = FillResult.err ("factory is not able to fill the pool: " ++ e)
              (channelPool.Close { c with factoryCalls := c.factoryCalls + 1 }) := by
        simp [fillPool, hfe]
      refine ⟨_, hstep, ?_, ?_, ?_⟩
      · simp [channelPool.Close, hc, hdisp, hbuf, filterMap_map_some_id]
      · simp [channelPool.Close, hc]
      · simp [channelPool.Close, hc]
    | succ j =>
      obtain ⟨c0, hc0⟩ := hok 0 (Nat.succ_pos j)
      rw [Nat.add_zero] at hc0
      have hroom : ch.buf.length < ch.capacity := by omega
      have hstep : fillPool f (n + 1) c
          = fillPool f n { c with conns := some { ch with buf := ch.buf ++ [some c0] },
                                  factoryCalls := c.factoryCalls + 1,
                                  created := c.created ++ [c0] } := by
        simp [fillPool, hc0, hc, hroom]
      rw [hstep]
      refine ih _ { ch with buf := ch.buf ++ [some c0] } j e rfl ?_ hdisp ?_ (by omega) ?_ ?_
      · show ch.buf ++ [some c0] = (c.created ++ [c0]).map some
        simp [hbuf]
      · show (ch.buf ++ [some c0]).length + n ≤ ch.capacity
        simp only [List.length_append, List.length_singleton]
        omega
      · show f (c.factoryCalls + 1 + j) = Except.error e
        have heq : c.factoryCalls + 1 + j = c.factoryCalls + (j + 1) := by omega
        rw [heq]
        exact hfe
      · intro j' hj'
        obtain ⟨cj, hcj⟩ := hok (j' + 1) (by omega)
        refine ⟨cj, ?_⟩
        show f (c.factoryCalls + 1 + j') = Except.ok cj
        have heq : c.factoryCalls + 1 + j' = c.factoryCalls + (j' + 1) := by omega
        rw [heq]
        exact hcj

/-- C4: with valid capacities, a construction in which the factory first fails
on invocation i < targetOccupancy fails atomically: `NewChannelPool` returns
the construction error, and in the final state every created connection has
been disposed, with the pool left closed (nil channel and factory) — no pool
and no live connection remains. -/
theorem newChannelPool_construction_atomic :
    ∀ (initialCap maxCap : Int) (f : PoolFactory) (closeAt : List UInt8) (i : Nat) (e : String),
      0 ≤ initialCap → 0 < maxCap → initialCap ≤ maxCap →
      (i : Int) < initialCap →
      f i = Except.error e →
      (∀ j, j < i → ∃ cj, f j = Except.ok cj) →
      ∃ cF, NewChannelPool initialCap maxCap f closeAt
          = CreateResult.err ("factory is not able to fill the pool: " ++ e) cF ∧
        cF.disposed = cF.created.map LdapClient.id ∧
        cF.conns = none ∧ cF.factory = none := by
  intro initialCap maxCap f closeAt i e h0 hm him hi hfe hok
  have hvalid : ¬(initialCap < 0 ∨ maxCap ≤ 0 ∨ initialCap > maxCap) := by
    push_neg
    refine ⟨by omega, by omega, by omega⟩
  obtain ⟨cF, hfill, hd, hcn, hcf⟩ := fillPool_first_failure f initialCap.toNat
    { conns := some { capacity := maxCap.toNat, buf := [], closed := false },
      aliveChecks := false, factory := some f, closeAt := closeAt,
      initialConnections := initialCap.toNat, maxConnections := maxCap.toNat,
      factoryCalls := 0, created := [], disposed := [] }
    { capacity := maxCap.toNat, buf := [], closed := false } i e rfl rfl rfl
    (by simp only [List.length_nil, Nat.zero_add]; omega) (by omega)
    (by simpa using hfe) (by intro j hj; simpa using hok j hj)
  refine ⟨cF, ?_, hd, hcn, hcf⟩
  unfold NewChannelPool
  rw [if_neg hvalid]
  simp only [hfill]

/-- A factory that succeeds twice and fails on its third invocation. -/
def fThirdFails : PoolFactory :=
  fun n => if n < 2 then Except.ok { id := n, alive := true } else Except.error ("boom")

/-- C4 witness: constructing with target 3 and a factory failing on its third
invocation returns the construction error with everything created disposed. -/
theorem newChannelPool_construction_atomic_witness :
    ∃ cF, NewChannelPool 3 3 fThirdFails []
        = CreateResult.err ("factory is not able to fill the pool: " ++ "boom") cF ∧
      cF.disposed = cF.created.map LdapClient.id ∧
      cF.conns = none ∧ cF.factory = none := by
  refine newChannelPool_construction_atomic 3 3 fThirdFails [] 2 ("boom")
    (by norm_num) (by norm_num) (by norm_num) (by norm_num) rfl ?_
  intro j hj
  interval_cases j
  · exact ⟨{ id := 0, alive := true }, rfl⟩
  · exact ⟨{ id := 1, alive := true }, rfl⟩

end Pooldap
